import Mathlib

/-!
Shallow embedding of the chat application's core logic (src/main.py): the
database rows (users, chat_rooms, room_members, messages), the persistence
helpers (`authenticate_user`, `get_or_create_room`, `join_room`,
`save_message`, `get_room_messages`), the in-memory socket registry
(`user_sockets`), the broadcast functions (`broadcast_to_room`,
`update_user_status`) and the page-level disconnect handler
(`on_disconnect`).

Machine conventions of the embedding:
- SQLAlchemy rows become structures; a table is the list of its rows in
  insertion order; autoincrement primary keys are per-table counters.
- `datetime.utcnow()` becomes a logical clock (`DB.clock`) bumped by every
  write, so `created_at` / `last_seen` are Nats.
- A live WebSocket is a Nat identifier; whether `socket.send` succeeds is
  given by an `alive : Nat → Bool` oracle, and a delivery is the pair
  (socket id, event).  `user_sockets` (a Python dict username → set of
  sockets) becomes an association list preserving insertion order.
-/

namespace ChatSpec

/-- Row of the `users` table (class User in src/main.py). -/
structure User where
  id : Nat
  username : String
  email : String
  hashed_password : String
  full_name : String
  avatar_url : String
  is_online : Bool
  last_seen : Nat
  created_at : Nat
deriving Repr, DecidableEq

/-- Row of the `chat_rooms` table (class ChatRoom in src/main.py). -/
structure ChatRoom where
  id : Nat
  name : String
  slug : String
  description : String
  created_by : Nat
  created_at : Nat
  is_private : Bool
deriving Repr, DecidableEq

/-- Row of the `room_members` table (class RoomMember in src/main.py). -/
structure RoomMember where
  id : Nat
  room_id : Nat
  user_id : Nat
  joined_at : Nat
  is_admin : Bool
deriving Repr, DecidableEq

/-- Row of the `messages` table (class Message in src/main.py). -/
structure Message where
  id : Nat
  content : String
  sender_id : Nat
  room_id : Nat
  message_type : String
  created_at : Nat
deriving Repr, DecidableEq

/-- The SQLite database: one list per table, per-table autoincrement
counters, and a logical clock standing for `datetime.utcnow()`. -/
structure DB where
  users : List User
  rooms : List ChatRoom
  room_members : List RoomMember
  messages : List Message
  next_user_id : Nat
  next_room_id : Nat
  next_member_id : Nat
  next_message_id : Nat
  clock : Nat
deriving Repr, DecidableEq

/-- Events pushed to clients over a socket (the dict payloads built in
src/main.py: `new_message` in send_message, `user_status` in
update_user_status). -/
inductive Event where
  | new_message (id : Nat) (content : String) (sender : String) (room_id : Nat)
  | user_status (username : String) (is_online : Bool) (last_seen : Nat)
deriving Repr, DecidableEq

/-- The global `user_sockets : Dict[str, set]` — username to its set of live
socket ids, in dict insertion order. -/
abbrev Registry : Type := List (String × List Nat)

/-- Dict membership + indexing (`username in user_sockets`,
`user_sockets[username]`): the first entry with the key. -/
def Registry.lookup : Registry → String → Option (List Nat)
  | [], _ => none
  | (v, socks) :: rest, u => if v = u then some socks else Registry.lookup rest u

/-- In-place update of an existing key's socket set (`.clear()`,
`.discard(...)` mutate the set held under the key). -/
def Registry.set : Registry → String → List Nat → Registry
  | [], _, _ => []
  | (v, socks) :: rest, u, s =>
      if v = u then (v, s) :: rest else (v, socks) :: Registry.set rest u s

/-- Embedding of python-slugify's `slugify` on ASCII input, as called by
get_or_create_room: walk the characters; an alphanumeric character is
emitted lowercased, preceded by a single '-' when at least one character was
already emitted and at least one non-alphanumeric character was skipped
since; every other character is dropped (so runs of non-alphanumerics
collapse to one separator and the result carries no leading or trailing
separator). -/
def slugAux (emitted pending : Bool) : List Char → List Char
  | [] => []
  | c :: cs =>
      if c.isAlphanum then
        if emitted && pending then '-' :: c.toLower :: slugAux true false cs
        else c.toLower :: slugAux true false cs
      else slugAux emitted true cs

/-- `slugify(room_name)` (src/main.py line 208). -/
def slugify (s : String) : String :=
  String.mk (slugAux false false s.toList)

/-- `authenticate_user(db, username, password)` (src/main.py lines 199-204).
`pwd_context.verify` is an opaque credential check, taken as the oracle
`verify password stored_hash`. Returns `none` — the single failure value —
when the username is unknown or the password does not verify. -/
def authenticate_user (verify : String → String → Bool) (db : DB)
    (username password : String) : Option User :=
  match db.users.find? (fun u => u.username = username) with
  | none => none
  | some user => if verify password user.hashed_password then some user else none

/-- `get_or_create_room(db, room_name, created_by)` (src/main.py lines
206-221): look the slug up; if absent, insert a fresh row (description and
is_private keep their column defaults) and return it. -/
def get_or_create_room (db : DB) (room_name : String) (created_by : Nat) :
    ChatRoom × DB :=
  let room_slug := slugify room_name
  match db.rooms.find? (fun r => r.slug = room_slug) with
  | some room => (room, db)
  | none =>
      let room : ChatRoom :=
        { id := db.next_room_id, name := room_name, slug := room_slug,
          description := "", created_by := created_by,
          created_at := db.clock, is_private := false }
      (room, { db with rooms := db.rooms ++ [room],
                       next_room_id := db.next_room_id + 1,
                       clock := db.clock + 1 })

/-- `join_room(db, user_id, room_id)` (src/main.py lines 223-233): insert a
membership row only when none exists for the pair. -/
def join_room (db : DB) (user_id room_id : Nat) : DB :=
  match db.room_members.find?
      (fun m => m.user_id = user_id && m.room_id = room_id) with
  | some _ => db
  | none =>
      { db with
        room_members := db.room_members ++
          [{ id := db.next_member_id, room_id := room_id, user_id := user_id,
             joined_at := db.clock, is_admin := false }],
        next_member_id := db.next_member_id + 1,
        clock := db.clock + 1 }

/-- `save_message(db, content, sender_id, room_id, message_type)`
(src/main.py lines 235-246). -/
def save_message (db : DB) (content : String) (sender_id room_id : Nat)
    (message_type : String) : Message × DB :=
  let message : Message :=
    { id := db.next_message_id, content := content, sender_id := sender_id,
      room_id := room_id, message_type := message_type,
      created_at := db.clock }
  (message, { db with messages := db.messages ++ [message],
                      next_message_id := db.next_message_id + 1,
                      clock := db.clock + 1 })

/-- Insertion step of `ORDER BY created_at DESC`: place a message into an
already descending list. -/
def insertDesc (m : Message) : List Message → List Message
  | [] => [m]
  | x :: xs =>
      if x.created_at ≤ m.created_at then m :: x :: xs
      else x :: insertDesc m xs

/-- `ORDER BY Message.created_at DESC` as an insertion sort. -/
def sortByCreatedDesc : List Message → List Message
  | [] => []
  | x :: xs => insertDesc x (sortByCreatedDesc xs)

/-- `get_room_messages(db, room_id, limit)` (src/main.py lines 248-252):
filter the room's rows, order newest first, take `limit`. -/
def get_room_messages (db : DB) (room_id limit : Nat) : List Message :=
  (sortByCreatedDesc (db.messages.filter (fun m => m.room_id = room_id))).take limit

/-- `ChatApp.load_room_messages` (src/main.py lines 408-418): the recent
messages reversed, oldest first, with the default limit of 50. -/
def load_room_messages (db : DB) (room_id : Nat) : List Message :=
  (get_room_messages db room_id 50).reverse

/-- The inner loop `for socket in socks.copy(): try: await socket.send(ev)
except: socks.discard(socket)` — returns the surviving socket set and the
successful deliveries, in iteration order.  A send failure is swallowed and
iteration continues. -/
def sendToSockets (alive : Nat → Bool) (ev : Event) :
    List Nat → List Nat × List (Nat × Event)
  | [] => ([], [])
  | s :: rest =>
      let p := sendToSockets alive ev rest
      if alive s then (s :: p.1, (s, ev) :: p.2) else (p.1, p.2)

/-- Membership resolution of `broadcast_to_room` (src/main.py lines 266-271):
the room's member rows, their user ids, and the usernames of the matching
user rows. -/
def room_usernames (db : DB) (room_id : Nat) : List String :=
  let room_members := db.room_members.filter (fun m => m.room_id = room_id)
  let user_ids := room_members.map (fun m => m.user_id)
  (db.users.filter (fun u => user_ids.contains u.id)).map (fun u => u.username)

/-- The outer loop of `broadcast_to_room` (src/main.py lines 274-281): for
each username with an entry in `user_sockets`, send to its sockets, pruning
the dead ones in place; a username with no entry is skipped. -/
def broadcastLoop (alive : Nat → Bool) (ev : Event) (reg : Registry) :
    List String → Registry × List (Nat × Event)
  | [] => (reg, [])
  | u :: rest =>
      match reg.lookup u with
      | none => broadcastLoop alive ev reg rest
      | some socks =>
          let p := sendToSockets alive ev socks
          let q := broadcastLoop alive ev (reg.set u p.1) rest
          (q.1, p.2 ++ q.2)

/-- `broadcast_to_room(room_id, message_data)` (src/main.py lines 261-283). -/
def broadcast_to_room (db : DB) (reg : Registry) (alive : Nat → Bool)
    (room_id : Nat) (ev : Event) : Registry × List (Nat × Event) :=
  broadcastLoop alive ev reg (room_usernames db room_id)

/-- The `for connected_username, sockets in user_sockets.items()` loop of
update_user_status (src/main.py lines 304-309): every entry is visited. -/
def broadcastAll (alive : Nat → Bool) (ev : Event) :
    Registry → Registry × List (Nat × Event)
  | [] => ([], [])
  | (u, socks) :: rest =>
      let p := sendToSockets alive ev socks
      let q := broadcastAll alive ev rest
      ((u, p.1) :: q.1, p.2 ++ q.2)

/-- Result of `update_user_status` / the connect and disconnect handlers:
the database and registry afterwards, the status event it constructed (none
when the username was not found), and the successful per-socket
deliveries. -/
structure StatusResult where
  db : DB
  reg : Registry
  emitted : Option Event
  dels : List (Nat × Event)
deriving Repr, DecidableEq

/-- `update_user_status(username, is_online)` (src/main.py lines 285-311):
look the user up by username; when found, set the online flag and last_seen,
build the `user_status` payload and push it to every registered socket; when
not found, do nothing at all. -/
def update_user_status (db : DB) (reg : Registry) (alive : Nat → Bool)
    (username : String) (is_online : Bool) : StatusResult :=
  match db.users.find? (fun u => u.username = username) with
  | none => { db := db, reg := reg, emitted := none, dels := [] }
  | some user =>
      let user2 : User := { user with is_online := is_online, last_seen := db.clock }
      let db2 : DB :=
        { db with users := db.users.map (fun u => if u.id = user.id then user2 else u),
                  clock := db.clock + 1 }
      let ev := Event.user_status username is_online user2.last_seen
      let p := broadcastAll alive ev reg
      { db := db2, reg := p.1, emitted := some ev, dels := p.2 }

/-- The `@ui.on('connect')` handler of chat_page (src/main.py lines 649-654):
ensure the username has a (possibly empty) socket entry, then mark the user
online.  The source never adds the actual connection to the set. -/
def on_connect (db : DB) (reg : Registry) (alive : Nat → Bool)
    (username : String) : StatusResult :=
  let reg2 := if (reg.lookup username).isSome then reg else reg ++ [(username, [])]
  update_user_status db reg2 alive username true

/-- The `@ui.on('disconnect')` handler of chat_page (src/main.py lines
656-660): clear the user's socket set if it has one, then unconditionally
mark the user offline — `update_user_status(username, False)` runs on every
disconnect, not only when the last connection goes away. -/
def on_disconnect (db : DB) (reg : Registry) (alive : Nat → Bool)
    (username : String) : StatusResult :=
  let reg2 := if (reg.lookup username).isSome then reg.set username [] else reg
  update_user_status db reg2 alive username false

/-! Lemmas about the registry and the broadcast loops. -/

theorem Registry.lookup_set_of_eq (reg : Registry) (u : String) (s socks : List Nat)
    (h : reg.lookup u = some socks) : (reg.set u s).lookup u = some s := by
  induction reg with
  | nil => simp [Registry.lookup] at h
  | cons hd tl ih =>
      by_cases hv : hd.1 = u
      · simp [Registry.set, Registry.lookup, hv]
      · simp only [Registry.lookup, hv, if_false] at h
        simp [Registry.set, Registry.lookup, hv, ih h]

theorem Registry.lookup_set_of_ne (reg : Registry) (u v : String) (s : List Nat)
    (h : v ≠ u) : (reg.set u s).lookup v = reg.lookup v := by
  induction reg with
  | nil => simp [Registry.set]
  | cons hd tl ih =>
      by_cases hv : hd.1 = u
      · have hne : ¬ hd.1 = v := fun hh => h (hh.symm.trans hv)
        have hne2 : ¬ u = v := fun hh => h hh.symm
        simp [Registry.set, Registry.lookup, hv, hne, hne2]
      · simp [Registry.set, Registry.lookup, hv, ih]

theorem filter_filter_self {α : Type} (p : α → Bool) (l : List α) :
    (l.filter p).filter p = l.filter p := by
  induction l with
  | nil => rfl
  | cons x xs ih =>
      cases hp : p x <;> simp [List.filter_cons, hp, ih]

theorem sendToSockets_fst (alive : Nat → Bool) (ev : Event) (socks : List Nat) :
    (sendToSockets alive ev socks).1 = socks.filter alive := by
  induction socks with
  | nil => rfl
  | cons s rest ih =>
      cases ha : alive s <;> simp [sendToSockets, ha, ih, List.filter_cons]

theorem sendToSockets_snd (alive : Nat → Bool) (ev : Event) (socks : List Nat) :
    (sendToSockets alive ev socks).2 = (socks.filter alive).map (fun s => (s, ev)) := by
  induction socks with
  | nil => rfl
  | cons s rest ih =>
      cases ha : alive s <;> simp [sendToSockets, ha, ih, List.filter_cons]

theorem broadcastLoop_fst_lookup (alive : Nat → Bool) (ev : Event)
    (names : List String) (reg : Registry) (u : String) :
    ((broadcastLoop alive ev reg names).1).lookup u =
      if u ∈ names then (reg.lookup u).map (fun socks => socks.filter alive)
      else reg.lookup u := by
  induction names generalizing reg with
  | nil => simp [broadcastLoop]
  | cons v rest ih =>
      by_cases hu : u = v
      · subst hu
        cases hl : reg.lookup u with
        | none =>
            simp only [broadcastLoop, hl, ih]
            by_cases hr : u ∈ rest <;> simp [hr, hl]
        | some socks =>
            simp only [broadcastLoop, hl, ih, sendToSockets_fst]
            have hset := Registry.lookup_set_of_eq reg u (socks.filter alive) socks hl
            by_cases hr : u ∈ rest <;>
              simp [hr, hl, hset, filter_filter_self]
      · cases hl : reg.lookup v with
        | none =>
            simp only [broadcastLoop, hl, ih]
            simp [List.mem_cons, hu]
        | some socks =>
            simp only [broadcastLoop, hl, ih, sendToSockets_fst]
            rw [Registry.lookup_set_of_ne reg v u (socks.filter alive) hu]
            simp [List.mem_cons, hu]

theorem lookup_set_filter_iff (reg : Registry) (v : String) (socks : List Nat)
    (alive : Nat → Bool) (hl : reg.lookup v = some socks) (u2 : String) (s : Nat) :
    (∃ t, (reg.set v (socks.filter alive)).lookup u2 = some t ∧
        s ∈ t ∧ alive s = true) ↔
      (∃ t, reg.lookup u2 = some t ∧ s ∈ t ∧ alive s = true) := by
  by_cases h : u2 = v
  · subst h
    rw [Registry.lookup_set_of_eq reg u2 (socks.filter alive) socks hl, hl]
    constructor
    · rintro ⟨t, ht, hs, ha⟩
      cases ht
      exact ⟨socks, rfl, (List.mem_filter.mp hs).1, ha⟩
    · rintro ⟨t, ht, hs, ha⟩
      cases ht
      exact ⟨socks.filter alive, rfl, List.mem_filter.mpr ⟨hs, ha⟩, ha⟩
  · rw [Registry.lookup_set_of_ne reg v u2 (socks.filter alive) h]

theorem broadcastLoop_snd_mem (alive : Nat → Bool) (ev : Event)
    (names : List String) (reg : Registry) (s : Nat) (e : Event) :
    (s, e) ∈ (broadcastLoop alive ev reg names).2 ↔
      e = ev ∧ ∃ u ∈ names, ∃ socks, reg.lookup u = some socks ∧
        s ∈ socks ∧ alive s = true := by
  induction names generalizing reg with
  | nil => simp [broadcastLoop]
  | cons v rest ih =>
      cases hl : reg.lookup v with
      | none =>
          simp only [broadcastLoop, hl, ih]
          constructor
          · rintro ⟨he, u, hu, socks, hsocks, hs, ha⟩
            exact ⟨he, u, List.mem_cons_of_mem v hu, socks, hsocks, hs, ha⟩
          · rintro ⟨he, u, hu, socks, hsocks, hs, ha⟩
            rcases List.mem_cons.mp hu with rfl | hu2
            · rw [hl] at hsocks; cases hsocks
            · exact ⟨he, u, hu2, socks, hsocks, hs, ha⟩
      | some socks =>
          simp only [broadcastLoop, hl, List.mem_append, sendToSockets_snd,
            sendToSockets_fst, ih]
          constructor
          · rintro (hmem | ⟨he, u, hu, t, ht, hs, ha⟩)
            · rcases List.mem_map.mp hmem with ⟨s2, hs2, heq⟩
              injection heq with h1 h2
              subst h1
              refine ⟨h2.symm, v, List.mem_cons_self v rest, socks, hl, ?_,
                (List.mem_filter.mp hs2).2⟩
              exact (List.mem_filter.mp hs2).1
            · rcases (lookup_set_filter_iff reg v socks alive hl u s).mp
                ⟨t, ht, hs, ha⟩ with ⟨t2, ht2, hs2, ha2⟩
              exact ⟨he, u, List.mem_cons_of_mem v hu, t2, ht2, hs2, ha2⟩
          · rintro ⟨he, u, hu, t, ht, hs, ha⟩
            rcases List.mem_cons.mp hu with rfl | hu2
            · subst he
              rw [hl] at ht
              cases ht
              exact Or.inl (List.mem_map.mpr ⟨s, List.mem_filter.mpr ⟨hs, ha⟩, rfl⟩)
            · rcases (lookup_set_filter_iff reg v socks alive hl u s).mpr
                ⟨t, ht, hs, ha⟩ with ⟨t2, ht2, hs2, ha2⟩
              exact Or.inr ⟨he, u, hu2, t2, ht2, hs2, ha2⟩

theorem broadcastAll_fst (alive : Nat → Bool) (ev : Event) (reg : Registry) :
    (broadcastAll alive ev reg).1 =
      reg.map (fun p => (p.1, p.2.filter alive)) := by
  induction reg with
  | nil => rfl
  | cons hd tl ih => simp [broadcastAll, sendToSockets_fst, ih]

theorem broadcastAll_snd_mem (alive : Nat → Bool) (ev : Event) (reg : Registry)
    (s : Nat) (e : Event) :
    (s, e) ∈ (broadcastAll alive ev reg).2 ↔
      e = ev ∧ ∃ u socks, (u, socks) ∈ reg ∧ s ∈ socks ∧ alive s = true := by
  induction reg with
  | nil => simp [broadcastAll]
  | cons hd tl ih =>
      simp only [broadcastAll, List.mem_append, sendToSockets_snd, ih]
      constructor
      · rintro (hmem | ⟨he, u, socks, hu, hs, ha⟩)
        · rcases List.mem_map.mp hmem with ⟨s2, hs2, heq⟩
          injection heq with h1 h2
          subst h1
          exact ⟨h2.symm, hd.1, hd.2, List.mem_cons_self hd tl,
            (List.mem_filter.mp hs2).1, (List.mem_filter.mp hs2).2⟩
        · exact ⟨he, u, socks, List.mem_cons_of_mem hd hu, hs, ha⟩
      · rintro ⟨he, u, socks, hu, hs, ha⟩
        rcases List.mem_cons.mp hu with heq | hu2
        · subst he
          refine Or.inl (List.mem_map.mpr ⟨s, ?_, rfl⟩)
          have h2 : hd.2 = socks := (congrArg Prod.snd heq).symm
          rw [h2]
          exact List.mem_filter.mpr ⟨hs, ha⟩
        · exact Or.inr ⟨he, u, socks, hu2, hs, ha⟩

/-! Character-level facts used for the slug properties. -/

theorem charToNat_ofNat_lt (n : Nat) (h : n < 55296) : (Char.ofNat n).toNat = n := by
  have hv : n.isValidChar := Or.inl h
  simp only [Char.ofNat, hv, dif_pos]
  simp [Char.ofNatAux, Char.toNat, UInt32.toNat]

theorem char_isAlphanum_iff (d : Char) : d.isAlphanum = true ↔
    (65 ≤ d.toNat ∧ d.toNat ≤ 90) ∨ (97 ≤ d.toNat ∧ d.toNat ≤ 122) ∨
    (48 ≤ d.toNat ∧ d.toNat ≤ 57) := by
  simp [Char.isAlphanum, Char.isAlpha, Char.isUpper, Char.isLower, Char.isDigit,
    Char.toNat, UInt32.le_def, BitVec.le_def, UInt32.toNat]
  tauto

theorem char_isUpper_iff (d : Char) : d.isUpper = true ↔
    (65 ≤ d.toNat ∧ d.toNat ≤ 90) := by
  simp [Char.isUpper, Char.toNat, UInt32.le_def, BitVec.le_def, UInt32.toNat]

theorem toLower_alnum (c : Char) (h : c.isAlphanum = true) :
    (c.toLower).isAlphanum = true ∧ (c.toLower).isUpper = false ∧ c.toLower ≠ '-' := by
  unfold Char.toLower
  by_cases hc : c.toNat ≥ 65 ∧ c.toNat ≤ 90
  · rw [if_pos hc]
    have h32 : (Char.ofNat (c.toNat + 32)).toNat = c.toNat + 32 :=
      charToNat_ofNat_lt _ (by omega)
    refine ⟨?_, ?_, ?_⟩
    · rw [char_isAlphanum_iff, h32]
      omega
    · rw [Bool.eq_false_iff]
      intro hu
      rw [char_isUpper_iff, h32] at hu
      omega
    · intro he
      have h45 : (Char.ofNat (c.toNat + 32)).toNat = ('-').toNat :=
        congrArg Char.toNat he
      rw [h32] at h45
      simp only [show ('-').toNat = 45 from rfl] at h45
      omega
  · rw [if_neg hc]
    refine ⟨h, ?_, ?_⟩
    · rw [Bool.eq_false_iff]
      intro hu
      rw [char_isUpper_iff] at hu
      exact hc ⟨hu.1, hu.2⟩
    · intro he
      rw [he] at h
      exact absurd h (by decide)

/-- Every character that `slugAux` emits is either the separator or the
lowercasing of an alphanumeric character of the input. -/
theorem slugAux_chars (l : List Char) : ∀ emitted pending : Bool,
    ∀ ch ∈ slugAux emitted pending l,
      ch = '-' ∨ ∃ c ∈ l, c.isAlphanum = true ∧ ch = c.toLower := by
  induction l with
  | nil => intro e p ch hch; simp [slugAux] at hch
  | cons c cs ih =>
      intro e p ch hch
      by_cases hc : c.isAlphanum = true
      · simp only [slugAux, hc, if_true] at hch
        by_cases hep : (e && p) = true
        · rw [if_pos hep] at hch
          rcases List.mem_cons.mp hch with rfl | hch2
          · exact Or.inl rfl
          rcases List.mem_cons.mp hch2 with rfl | hch3
          · exact Or.inr ⟨c, List.mem_cons_self c cs, hc, rfl⟩
          · rcases ih true false ch hch3 with hd | ⟨c2, hc2, ha2, he2⟩
            · exact Or.inl hd
            · exact Or.inr ⟨c2, List.mem_cons_of_mem c hc2, ha2, he2⟩
        · rw [if_neg hep] at hch
          rcases List.mem_cons.mp hch with rfl | hch2
          · exact Or.inr ⟨c, List.mem_cons_self c cs, hc, rfl⟩
          · rcases ih true false ch hch2 with hd | ⟨c2, hc2, ha2, he2⟩
            · exact Or.inl hd
            · exact Or.inr ⟨c2, List.mem_cons_of_mem c hc2, ha2, he2⟩
      · simp only [slugAux, hc, if_false] at hch
        rcases ih e true ch hch with hd | ⟨c2, hc2, ha2, he2⟩
        · exact Or.inl hd
        · exact Or.inr ⟨c2, List.mem_cons_of_mem c hc2, ha2, he2⟩

/-- `slugAux` never emits two adjacent separators: a '-' is always followed
by a lowercased alphanumeric character. -/
theorem slugAux_chain (l : List Char) : ∀ emitted pending : Bool,
    (slugAux emitted pending l).Chain' (fun a b => ¬(a = '-' ∧ b = '-')) := by
  induction l with
  | nil => intro e p; simp [slugAux]
  | cons c cs ih =>
      intro e p
      by_cases hc : c.isAlphanum = true
      · have hlow : c.toLower ≠ '-' := (toLower_alnum c hc).2.2
        have htail : (c.toLower :: slugAux true false cs).Chain'
            (fun a b => ¬(a = '-' ∧ b = '-')) := by
          rw [List.chain'_cons']
          refine ⟨?_, ih true false⟩
          intro y _
          exact fun hab => hlow hab.1
        by_cases hep : (e && p) = true
        · simp only [slugAux, hc, if_true, hep]
          rw [List.chain'_cons']
          refine ⟨?_, htail⟩
          intro y hy
          simp only [List.head?_cons, Option.mem_def, Option.some.injEq] at hy
          subst hy
          exact fun hab => hlow hab.2
        · simp only [slugAux, hc, if_true, hep, if_false]
          exact htail
      · simp only [slugAux, hc, if_false]
        exact ih e true

/-! Lemmas about the `ORDER BY created_at DESC` sort. -/

theorem insertDesc_of_lt (m : Message) (l : List Message)
    (h : ∀ y ∈ l, m.created_at < y.created_at) : insertDesc m l = l ++ [m] := by
  induction l with
  | nil => rfl
  | cons x xs ih =>
      have hx : ¬ x.created_at ≤ m.created_at :=
        Nat.not_le.mpr (h x (List.mem_cons_self x xs))
      simp only [insertDesc, hx, if_false, List.cons_append, List.cons.injEq,
        true_and]
      exact ih (fun y hy => h y (List.mem_cons_of_mem x hy))

theorem sortByCreatedDesc_of_sorted (l : List Message)
    (h : l.Pairwise (fun a b => a.created_at < b.created_at)) :
    sortByCreatedDesc l = l.reverse := by
  induction l with
  | nil => rfl
  | cons x xs ih =>
      rcases List.pairwise_cons.mp h with ⟨hx, hxs⟩
      simp only [sortByCreatedDesc, ih hxs, List.reverse_cons]
      exact insertDesc_of_lt x xs.reverse
        (fun y hy => hx y (List.mem_reverse.mp hy))

/-- With unique usernames, `find?` by username returns exactly the matching
row. -/
theorem find?_username_eq (l : List User) (username : String)
    (hnd : (l.map User.username).Nodup) (user : User)
    (hmem : user ∈ l) (hu : user.username = username) :
    l.find? (fun u => u.username = username) = some user := by
  induction l with
  | nil => cases hmem
  | cons x xs ih =>
      rw [List.map_cons, List.nodup_cons] at hnd
      rcases List.mem_cons.mp hmem with rfl | hm
      · simp [List.find?_cons, hu]
      · have hx : ¬ (x.username = username) := by
          intro hxeq
          refine hnd.1 ?_
          rw [hxeq, ← hu]
          exact List.mem_map_of_mem User.username hm
        simp only [List.find?_cons, decide_eq_true_eq, hx, decide_False]
        exact ih hnd.2 hm

/-! The claims. -/

/-- C8: the slug of the room created or returned by `get_or_create_room` is
`slugify` of the name — the name normalized: every character of the slug is
either a lowercased alphanumeric character of the name or the separator '-',
and no two separators are adjacent (runs of non-alphanumeric characters
collapse to a single separator). -/
theorem C8_room_slug_is_normalized_name (db : DB) (name : String)
    (created_by : Nat) :
    (get_or_create_room db name created_by).1.slug = slugify name ∧
    (∀ ch ∈ (slugify name).toList,
      ch = '-' ∨ ∃ c ∈ name.toList, c.isAlphanum = true ∧ ch = c.toLower) ∧
    ((slugify name).toList).Chain' (fun a b => ¬(a = '-' ∧ b = '-')) := by
  refine ⟨?_, ?_, ?_⟩
  · simp only [get_or_create_room]
    cases hf : db.rooms.find? (fun r => r.slug = slugify name) with
    | some room =>
        have hp := List.find?_some hf
        simpa using hp
    | none => simp
  · have hs : (slugify name).toList = slugAux false false name.toList := rfl
    rw [hs]
    exact slugAux_chars name.toList false false
  · have hs : (slugify name).toList = slugAux false false name.toList := rfl
    rw [hs]
    exact slugAux_chain name.toList false false

/-- C2: two `get_or_create_room` calls whose names normalize to the same
slug return the same room id, and the second call creates no second room
with that slug: afterwards the number of rooms carrying the slug is the
greater of its original count and one. -/
theorem C2_same_slug_no_duplicate_room (db : DB) (name1 name2 : String)
    (cid1 cid2 : Nat) (h : slugify name1 = slugify name2) :
    (get_or_create_room (get_or_create_room db name1 cid1).2 name2 cid2).1.id =
      (get_or_create_room db name1 cid1).1.id ∧
    ((get_or_create_room (get_or_create_room db name1 cid1).2 name2 cid2).2.rooms.filter
        (fun r => r.slug = slugify name1)).length =
      max ((db.rooms.filter (fun r => r.slug = slugify name1)).length) 1 := by
  cases hf : db.rooms.find? (fun r => r.slug = slugify name1) with
  | some room =>
      have hmem := List.mem_of_find?_eq_some hf
      have hslug : room.slug = slugify name1 := by simpa using List.find?_some hf
      have hfirst : get_or_create_room db name1 cid1 = (room, db) := by
        simp [get_or_create_room, hf]
      have hf2 : db.rooms.find? (fun r => r.slug = slugify name2) = some room := by
        rw [← h]; exact hf
      have hsecond : get_or_create_room db name2 cid2 = (room, db) := by
        simp [get_or_create_room, hf2]
      rw [hfirst]
      refine ⟨by rw [hsecond], ?_⟩
      have hlen : 1 ≤ (db.rooms.filter (fun r => r.slug = slugify name1)).length := by
        have : room ∈ db.rooms.filter (fun r => r.slug = slugify name1) :=
          List.mem_filter.mpr ⟨hmem, by simpa using hslug⟩
        exact List.length_pos.mpr (List.ne_nil_of_mem this)
      rw [hsecond]
      exact (Nat.max_eq_left hlen).symm
  | none =>
      have hnone : ∀ r ∈ db.rooms, ¬ r.slug = slugify name1 := by
        intro r hr
        have := List.find?_eq_none.mp hf r hr
        simpa using this
      have hfilter : db.rooms.filter (fun r => r.slug = slugify name1) = [] :=
        List.filter_eq_nil_iff.mpr (fun r hr => by simpa using hnone r hr)
      simp only [get_or_create_room, hf]
      set newRoom : ChatRoom :=
        { id := db.next_room_id, name := name1, slug := slugify name1,
          description := "", created_by := cid1,
          created_at := db.clock, is_private := false } with hnew
      have hf2 : (db.rooms ++ [newRoom]).find? (fun r => r.slug = slugify name2) =
          some newRoom := by
        rw [List.find?_append]
        have h1 : db.rooms.find? (fun r => r.slug = slugify name2) = none := by
          rw [← h]; exact hf
        rw [h1]
        simp [hnew, ← h]
      simp only [hf2, hfilter]
      constructor
      · trivial
      · rw [List.filter_append, hfilter]
        simp [hnew]

/-- C10: when a room with the normalized slug already exists,
`get_or_create_room` leaves the database untouched and returns one of the
stored rooms unchanged (the name and creator arguments overwrite nothing). -/
theorem C10_existing_room_returned_unchanged (db : DB) (name : String)
    (created_by : Nat) (h : ∃ r ∈ db.rooms, r.slug = slugify name) :
    (get_or_create_room db name created_by).2 = db ∧
    ∃ r ∈ db.rooms, (get_or_create_room db name created_by).1 = r := by
  have hsome : (db.rooms.find? (fun r => r.slug = slugify name)).isSome := by
    rw [List.find?_isSome]
    rcases h with ⟨r, hr, hs⟩
    exact ⟨r, hr, by simpa using hs⟩
  cases hf : db.rooms.find? (fun r => r.slug = slugify name) with
  | none => rw [hf] at hsome; cases hsome
  | some room =>
      have hmem := List.mem_of_find?_eq_some hf
      constructor
      · simp [get_or_create_room, hf]
      · exact ⟨room, hmem, by simp [get_or_create_room, hf]⟩

/-- The stored room of the C10 witness scenario. -/
def C10room : ChatRoom :=
  { id := 5, name := "Team Chat", slug := "team-chat", description := "d",
    created_by := 1, created_at := 2, is_private := true }

/-- The database of the C10 witness scenario: its only room already carries
the slug `team-chat`. -/
def C10db : DB :=
  { users := [], rooms := [C10room], room_members := [], messages := [],
    next_user_id := 1, next_room_id := 6, next_member_id := 1,
    next_message_id := 1, clock := 9 }

/-- C10 witness: calling `get_or_create_room` on that database with the name
"Team  Chat!!" (same slug) and a different creator returns the stored room
and changes nothing. -/
theorem C10_existing_room_returned_unchanged_witness :
    (get_or_create_room C10db "Team  Chat!!" 42).2 = C10db ∧
    ∃ r ∈ C10db.rooms, (get_or_create_room C10db "Team  Chat!!" 42).1 = r :=
  C10_existing_room_returned_unchanged C10db "Team  Chat!!" 42
    ⟨C10room, by decide, by decide⟩

/-- C3: `join_room` is idempotent and keeps at most one membership row per
(room, user) pair: one call brings the number of rows for the pair to the
greater of its original count and one (so from zero to exactly one), and a
second call with the pair already present is a successful no-op returning
the database unchanged. -/
theorem C3_join_room_idempotent (db : DB) (uid rid : Nat) :
    ((join_room db uid rid).room_members.filter
        (fun m => m.user_id = uid && m.room_id = rid)).length =
      max ((db.room_members.filter
        (fun m => m.user_id = uid && m.room_id = rid)).length) 1 ∧
    join_room (join_room db uid rid) uid rid = join_room db uid rid := by
  cases hf : db.room_members.find? (fun m => m.user_id = uid && m.room_id = rid) with
  | some m =>
      have hmem := List.mem_of_find?_eq_some hf
      have hp := List.find?_some hf
      have hjoin : join_room db uid rid = db := by
        simp [join_room, hf]
      rw [hjoin]
      have hlen : 1 ≤ (db.room_members.filter
          (fun m => m.user_id = uid && m.room_id = rid)).length := by
        have : m ∈ db.room_members.filter
            (fun m => m.user_id = uid && m.room_id = rid) :=
          List.mem_filter.mpr ⟨hmem, hp⟩
        exact List.length_pos.mpr (List.ne_nil_of_mem this)
      exact ⟨(Nat.max_eq_left hlen).symm, hjoin⟩
  | none =>
      have hfilter : db.room_members.filter
          (fun m => m.user_id = uid && m.room_id = rid) = [] :=
        List.filter_eq_nil_iff.mpr (List.find?_eq_none.mp hf)
      set newMem : RoomMember :=
        { id := db.next_member_id, room_id := rid, user_id := uid,
          joined_at := db.clock, is_admin := false } with hnewMem
      have hjoin : join_room db uid rid =
          { db with
            room_members := db.room_members ++ [newMem],
            next_member_id := db.next_member_id + 1,
            clock := db.clock + 1 } := by
        simp [join_room, hf]
      have hf2 : (db.room_members ++ [newMem]).find?
          (fun m => m.user_id = uid && m.room_id = rid) = some newMem := by
        rw [List.find?_append, hf]
        simp [hnewMem]
      constructor
      · rw [hjoin]
        simp only [List.filter_append, hfilter, List.nil_append]
        simp [hnewMem]
      · rw [hjoin]
        simp only [join_room]
        simp only [hf2]

/-- C7: `authenticate_user` returns the stored user exactly when a user with
the given username exists and the password verifies against that user's
stored hash; in every other case — unknown username or wrong password — it
returns the one failure value `none`, with nothing distinguishing the two
cases. -/
theorem C7_authenticate_user_characterization (verify : String → String → Bool)
    (db : DB) (username password : String)
    (hnd : (db.users.map User.username).Nodup) :
    (∀ user, authenticate_user verify db username password = some user ↔
      user ∈ db.users ∧ user.username = username ∧
        verify password user.hashed_password = true) ∧
    (authenticate_user verify db username password = none ↔
      ∀ user ∈ db.users, user.username = username →
        verify password user.hashed_password = false) := by
  have hfwd : ∀ user, authenticate_user verify db username password = some user →
      user ∈ db.users ∧ user.username = username ∧
        verify password user.hashed_password = true := by
    intro user hauth
    cases hf : db.users.find? (fun u => u.username = username) with
    | none => simp [authenticate_user, hf] at hauth
    | some u =>
        cases hv : verify password u.hashed_password with
        | false => simp [authenticate_user, hf, hv] at hauth
        | true =>
            simp only [authenticate_user, hf, hv, if_true] at hauth
            cases hauth
            exact ⟨List.mem_of_find?_eq_some hf,
              by simpa using List.find?_some hf, hv⟩
  have hbwd : ∀ user, user ∈ db.users → user.username = username →
      verify password user.hashed_password = true →
      authenticate_user verify db username password = some user := by
    intro user hmem huser hv
    simp [authenticate_user, find?_username_eq db.users username hnd user hmem huser, hv]
  constructor
  · intro user
    exact ⟨hfwd user, fun ⟨hmem, huser, hv⟩ => hbwd user hmem huser hv⟩
  · constructor
    · intro hnone user hmem huser
      cases hv : verify password user.hashed_password with
      | false => rfl
      | true => rw [hbwd user hmem huser hv] at hnone; cases hnone
    · intro hall
      cases hf : db.users.find? (fun u => u.username = username) with
      | none => simp [authenticate_user, hf]
      | some u =>
          have huser : u.username = username := by simpa using List.find?_some hf
          simp [authenticate_user, hf,
            hall u (List.mem_of_find?_eq_some hf) huser]

/-- The credential oracle of the C7 witness: the stored hash must equal the
password itself. -/
def C7verify : String → String → Bool := fun password stored => password == stored

/-- The user of the C7 witness. -/
def C7user : User :=
  { id := 1, username := "alice", email := "a@chat", hashed_password := "pw",
    full_name := "Alice", avatar_url := "", is_online := false,
    last_seen := 0, created_at := 0 }

/-- The database of the C7 witness: one user "alice" whose stored hash is
"pw". -/
def C7db : DB :=
  { users := [C7user], rooms := [], room_members := [], messages := [],
    next_user_id := 2, next_room_id := 1, next_member_id := 1,
    next_message_id := 1, clock := 0 }

/-- C7 witness: the characterization instantiated at the one-user database
and the concrete login attempt ("alice", "pw"). -/
theorem C7_authenticate_user_characterization_witness :
    (∀ user, authenticate_user C7verify C7db "alice" "pw" = some user ↔
      user ∈ C7db.users ∧ user.username = "alice" ∧
        C7verify "pw" user.hashed_password = true) ∧
    (authenticate_user C7verify C7db "alice" "pw" = none ↔
      ∀ user ∈ C7db.users, user.username = "alice" →
        C7verify "pw" user.hashed_password = false) :=
  C7_authenticate_user_characterization C7verify C7db "alice" "pw"
    (by simp [C7db, C7user])

/-- C9: updating presence for a username that matches no user row is a
silent no-op: the database is unchanged, no `user_status` event is
constructed, nothing is delivered to any socket, and no error arises (the
function is total). -/
theorem C9_unknown_user_status_noop (db : DB) (reg : Registry)
    (alive : Nat → Bool) (username : String) (is_online : Bool)
    (h : ∀ u ∈ db.users, u.username ≠ username) :
    update_user_status db reg alive username is_online =
      { db := db, reg := reg, emitted := none, dels := [] } := by
  have hf : db.users.find? (fun u => u.username = username) = none :=
    List.find?_eq_none.mpr (fun u hu => by simpa using h u hu)
  simp [update_user_status, hf]

/-- The user of the C9 witness. -/
def C9user : User :=
  { id := 1, username := "alice", email := "a@chat", hashed_password := "h",
    full_name := "Alice", avatar_url := "", is_online := true,
    last_seen := 0, created_at := 0 }

/-- The database of the C9 witness: its only user is "alice". -/
def C9db : DB :=
  { users := [C9user], rooms := [], room_members := [], messages := [],
    next_user_id := 2, next_room_id := 1, next_member_id := 1,
    next_message_id := 1, clock := 7 }

/-- C9 witness: a status update for the unknown username "nobody" against a
database holding only "alice" and a registry with one live socket returns
everything unchanged and delivers nothing. -/
theorem C9_unknown_user_status_noop_witness :
    update_user_status C9db [("alice", [4])] (fun _ => true) "nobody" false =
      { db := C9db, reg := [("alice", [4])], emitted := none, dels := [] } :=
  C9_unknown_user_status_noop C9db [("alice", [4])] (fun _ => true) "nobody"
    false (by simp [C9db, C9user])


/-- C5: with message timestamps strictly increasing in insertion order (as
`save_message` produces them), the oldest-first view of
`get_room_messages` — what `ChatApp.load_room_messages` renders — is sorted
by creation time, holds at most `limit` messages, and contains only messages
of the queried room; so two messages of the room that are both in the view
appear in creation order, the earlier one first. -/
theorem C5_recent_messages_creation_order (db : DB) (rid limit : Nat)
    (h : db.messages.Pairwise (fun a b => a.created_at < b.created_at)) :
    ((get_room_messages db rid limit).reverse).Pairwise
      (fun a b => a.created_at < b.created_at) ∧
    (get_room_messages db rid limit).length ≤ limit ∧
    (∀ m ∈ get_room_messages db rid limit, m.room_id = rid) ∧
    (load_room_messages db rid).Pairwise
      (fun a b => a.created_at < b.created_at) := by
  have key : ∀ lim : Nat,
      ((get_room_messages db rid lim).reverse).Pairwise
        (fun a b => a.created_at < b.created_at) ∧
      (get_room_messages db rid lim).length ≤ lim ∧
      (∀ m ∈ get_room_messages db rid lim, m.room_id = rid) := by
    intro lim
    have hfilter : (db.messages.filter (fun m => m.room_id = rid)).Pairwise
        (fun a b => a.created_at < b.created_at) := h.filter _
    have hsort : sortByCreatedDesc (db.messages.filter (fun m => m.room_id = rid)) =
        (db.messages.filter (fun m => m.room_id = rid)).reverse :=
      sortByCreatedDesc_of_sorted _ hfilter
    have hget : get_room_messages db rid lim =
        ((db.messages.filter (fun m => m.room_id = rid)).reverse).take lim := by
      rw [get_room_messages, hsort]
    have hrev : ((db.messages.filter (fun m => m.room_id = rid)).reverse).Pairwise
        (fun a b => b.created_at < a.created_at) :=
      List.pairwise_reverse.mpr hfilter
    have htake : (get_room_messages db rid lim).Pairwise
        (fun a b => b.created_at < a.created_at) := by
      rw [hget]
      exact List.Pairwise.sublist (List.take_sublist _ _) hrev
    refine ⟨List.pairwise_reverse.mpr htake, ?_, ?_⟩
    · rw [hget]
      exact List.length_take_le _ _
    · intro m hm
      rw [hget] at hm
      have hm2 : m ∈ (db.messages.filter (fun m => m.room_id = rid)).reverse :=
        List.mem_of_mem_take hm
      have hm3 : m ∈ db.messages.filter (fun m => m.room_id = rid) :=
        List.mem_reverse.mp hm2
      simpa using List.of_mem_filter hm3
  rcases key limit with ⟨h1, h2, h3⟩
  exact ⟨h1, h2, h3, (key 50).1⟩

/-- The database of the C5 witness: room 1 holds messages "m1" then "m2"
with increasing timestamps, and room 2 holds an unrelated message in
between. -/
def C5db : DB :=
  { users := [], rooms := [], room_members := [],
    messages :=
      [{ id := 1, content := "m1", sender_id := 1, room_id := 1,
         message_type := "text", created_at := 0 },
       { id := 2, content := "other", sender_id := 2, room_id := 2,
         message_type := "text", created_at := 1 },
       { id := 3, content := "m2", sender_id := 1, room_id := 1,
         message_type := "text", created_at := 2 }],
    next_user_id := 1, next_room_id := 1, next_member_id := 1,
    next_message_id := 4, clock := 3 }

/-- C5 witness: the ordering theorem instantiated at that database for room
1 with limit 10. -/
theorem C5_recent_messages_creation_order_witness :
    ((get_room_messages C5db 1 10).reverse).Pairwise
      (fun a b => a.created_at < b.created_at) ∧
    (get_room_messages C5db 1 10).length ≤ 10 ∧
    (∀ m ∈ get_room_messages C5db 1 10, m.room_id = 1) ∧
    (load_room_messages C5db 1).Pairwise
      (fun a b => a.created_at < b.created_at) :=
  C5_recent_messages_creation_order C5db 1 10 (by decide)



/-- Membership characterization of the username resolution in
`broadcast_to_room`: a username is targeted exactly when some user row
carries it and some membership row ties that user to the room. -/
theorem room_usernames_mem (db : DB) (rid : Nat) (uname : String) :
    uname ∈ room_usernames db rid ↔
      ∃ u ∈ db.users, u.username = uname ∧
        ∃ m ∈ db.room_members, m.room_id = rid ∧ m.user_id = u.id := by
  simp only [room_usernames, List.mem_map, List.mem_filter]
  constructor
  · rintro ⟨u, ⟨hu, hc⟩, huname⟩
    have hid : u.id ∈ (db.room_members.filter
        (fun m => m.room_id = rid)).map (fun m => m.user_id) := by
      simpa [List.elem_iff] using hc
    rcases List.mem_map.mp hid with ⟨m, hm, hmid⟩
    rcases List.mem_filter.mp hm with ⟨hm2, hmr⟩
    exact ⟨u, hu, huname, m, hm2, by simpa using hmr, hmid⟩
  · rintro ⟨u, hu, huname, m, hm, hmr, hmid⟩
    refine ⟨u, ⟨hu, ?_⟩, huname⟩
    have hid : u.id ∈ (db.room_members.filter
        (fun m => m.room_id = rid)).map (fun m => m.user_id) :=
      List.mem_map.mpr ⟨m, List.mem_filter.mpr ⟨hm, by simpa using hmr⟩, hmid⟩
    simpa [List.elem_iff] using hid

/-- C4: a pair (socket, event) is delivered by `broadcast_to_room` exactly
when the event is the broadcast one and the socket is a live registered
connection of a user who is a member of the room.  So every live connection
of every member with a registry entry receives the event, no connection of a
non-member receives anything, and a member with no entry or no live sockets
is skipped without error (the function is total and the equivalence still
holds). -/
theorem C4_broadcast_reaches_exactly_member_connections (db : DB)
    (reg : Registry) (alive : Nat → Bool) (rid : Nat) (ev : Event)
    (s : Nat) (e : Event) :
    (s, e) ∈ (broadcast_to_room db reg alive rid ev).2 ↔
      e = ev ∧ ∃ u ∈ db.users,
        (∃ m ∈ db.room_members, m.room_id = rid ∧ m.user_id = u.id) ∧
        ∃ socks, reg.lookup u.username = some socks ∧ s ∈ socks ∧
          alive s = true := by
  rw [broadcast_to_room, broadcastLoop_snd_mem]
  constructor
  · rintro ⟨he, uname, hmem, socks, hlook, hs, ha⟩
    rcases (room_usernames_mem db rid uname).mp hmem with
      ⟨u, hu, huname, m, hm, hmr, hmid⟩
    refine ⟨he, u, hu, ⟨m, hm, hmr, hmid⟩, socks, ?_, hs, ha⟩
    rw [huname]
    exact hlook
  · rintro ⟨he, u, hu, ⟨m, hm, hmr, hmid⟩, socks, hlook, hs, ha⟩
    exact ⟨he, u.username,
      (room_usernames_mem db rid u.username).mpr ⟨u, hu, rfl, m, hm, hmr, hmid⟩,
      socks, hlook, hs, ha⟩

/-- C6: a dead connection encountered during a room broadcast is pruned from
that username's socket set in the registry (only live sockets remain, the
dead one is gone), while the broadcast itself still completes and still
delivers to every live socket of that same set — the failure is never
surfaced to the caller. -/
theorem C6_broadcast_swallows_delivery_failure (db : DB) (reg : Registry)
    (alive : Nat → Bool) (rid : Nat) (ev : Event) (username : String)
    (socks : List Nat) (s : Nat)
    (h1 : username ∈ room_usernames db rid)
    (h2 : reg.lookup username = some socks)
    (h3 : s ∈ socks) (h4 : alive s = false) :
    ((broadcast_to_room db reg alive rid ev).1.lookup username =
        some (socks.filter alive) ∧
      s ∉ socks.filter alive) ∧
    ∀ s2 ∈ socks, alive s2 = true →
      (s2, ev) ∈ (broadcast_to_room db reg alive rid ev).2 := by
  refine ⟨⟨?_, ?_⟩, ?_⟩
  · rw [broadcast_to_room, broadcastLoop_fst_lookup, if_pos h1, h2]
    rfl
  · intro hmem
    rw [List.mem_filter, h4] at hmem
    cases hmem.2
  · intro s2 hs2 ha2
    rw [broadcast_to_room, broadcastLoop_snd_mem]
    exact ⟨rfl, username, h1, socks, h2, hs2, ha2⟩

/-- The database of the C6 witness: users "alice" and "bob" are members of
room 1. -/
def C6db : DB :=
  { users :=
      [{ id := 1, username := "alice", email := "a@chat",
         hashed_password := "h", full_name := "Alice", avatar_url := "",
         is_online := true, last_seen := 0, created_at := 0 },
       { id := 2, username := "bob", email := "b@chat",
         hashed_password := "h", full_name := "Bob", avatar_url := "",
         is_online := true, last_seen := 0, created_at := 0 }],
    rooms := [{ id := 1, name := "room", slug := "room", description := "",
                created_by := 1, created_at := 0, is_private := false }],
    room_members :=
      [{ id := 1, room_id := 1, user_id := 1, joined_at := 0, is_admin := false },
       { id := 2, room_id := 1, user_id := 2, joined_at := 0, is_admin := false }],
    messages := [], next_user_id := 3, next_room_id := 2, next_member_id := 3,
    next_message_id := 1, clock := 1 }

/-- The registry of the C6 witness: "alice" has sockets 10 (dead) and 11
(live). -/
def C6reg : Registry := [("alice", [10, 11]), ("bob", [20])]

/-- Socket liveness of the C6 witness: socket 10 is dead, all others live. -/
def C6alive : Nat → Bool := fun s => s != 10

/-- C6 witness: broadcasting to room 1 with alice's socket 10 dead prunes 10
from her entry and still delivers to her live socket 11. -/
theorem C6_broadcast_swallows_delivery_failure_witness :
    (((broadcast_to_room C6db C6reg C6alive 1
          (Event.new_message 1 "hi" "bob" 1)).1.lookup "alice" =
        some ([10, 11].filter C6alive) ∧
      10 ∉ [10, 11].filter C6alive) ∧
    ∀ s2 ∈ [10, 11], C6alive s2 = true →
      (s2, Event.new_message 1 "hi" "bob" 1) ∈
        (broadcast_to_room C6db C6reg C6alive 1
          (Event.new_message 1 "hi" "bob" 1)).2) :=
  C6_broadcast_swallows_delivery_failure C6db C6reg C6alive 1
    (Event.new_message 1 "hi" "bob" 1) "alice" [10, 11] 10
    (by decide) (by decide) (by decide) (by decide)



/-- When a user row with the username exists, `update_user_status`
constructs exactly one status event, stamps it with the pre-call clock,
delivers only that event, bumps the clock, and keeps a row with the same
username present. -/
theorem update_user_status_found (db : DB) (reg : Registry)
    (alive : Nat → Bool) (username : String) (b : Bool)
    (h : ∃ user ∈ db.users, user.username = username) :
    (update_user_status db reg alive username b).emitted =
      some (Event.user_status username b db.clock) ∧
    (∀ d ∈ (update_user_status db reg alive username b).dels,
      d.2 = Event.user_status username b db.clock) ∧
    (update_user_status db reg alive username b).db.clock = db.clock + 1 ∧
    ∃ user2 ∈ (update_user_status db reg alive username b).db.users,
      user2.username = username := by
  have hsome : (db.users.find? (fun u => u.username = username)).isSome := by
    rw [List.find?_isSome]
    rcases h with ⟨u, hu, hn⟩
    exact ⟨u, hu, by simpa using hn⟩
  cases hf : db.users.find? (fun u => u.username = username) with
  | none => rw [hf] at hsome; cases hsome
  | some user =>
      have husername : user.username = username := by
        simpa using List.find?_some hf
      have hmem := List.mem_of_find?_eq_some hf
      refine ⟨?_, ?_, ?_, ?_⟩
      · simp [update_user_status, hf]
      · rintro ⟨ds, de⟩ hd
        simp only [update_user_status, hf] at hd
        exact ((broadcastAll_snd_mem alive _ reg ds de).mp hd).1
      · simp [update_user_status, hf]
      · refine ⟨{ user with is_online := b, last_seen := db.clock }, ?_, husername⟩
        simp only [update_user_status, hf]
        refine List.mem_map.mpr ⟨user, hmem, ?_⟩
        simp

/-- The user of the C1 scenario. -/
def C1user : User :=
  { id := 1, username := "alice", email := "a@chat", hashed_password := "h",
    full_name := "Alice", avatar_url := "", is_online := true,
    last_seen := 0, created_at := 0 }

/-- The database of the C1 scenario: "alice" exists and the clock is 3. -/
def C1db : DB :=
  { users := [C1user], rooms := [], room_members := [], messages := [],
    next_user_id := 2, next_room_id := 1, next_member_id := 1,
    next_message_id := 1, clock := 3 }

/-- The registry of the C1 scenario: "alice" has her only connection
(socket 1); "bob" listens on socket 7. -/
def C1reg : Registry := [("alice", [1]), ("bob", [7])]

/-- Socket liveness of the C1 scenario: every socket is live. -/
def C1alive : Nat → Bool := fun _ => true

/-- C1 counterexample: after alice's only connection disconnects, a second
disconnect with no intervening connect broadcasts a further offline event —
it is constructed again and even delivered to bob's live socket — where the
claim requires that none be emitted. -/
theorem C1_counterexample :
    (on_disconnect (on_disconnect C1db C1reg C1alive "alice").db
        (on_disconnect C1db C1reg C1alive "alice").reg C1alive "alice").emitted =
      some (Event.user_status "alice" false 4) ∧
    (7, Event.user_status "alice" false 4) ∈
      (on_disconnect (on_disconnect C1db C1reg C1alive "alice").db
          (on_disconnect C1db C1reg C1alive "alice").reg C1alive "alice").dels := by
  decide

/-- C1 (amended): the disconnect handler broadcasts one offline status event
per disconnect callback, not per connection-count transition edge: whenever
a user row with the username exists, `on_disconnect` constructs exactly one
offline event (every delivered pair carries it), and a second disconnect
with no intervening connect constructs an offline event again. -/
theorem C1_offline_broadcast_per_disconnect (db : DB) (reg : Registry)
    (alive : Nat → Bool) (username : String)
    (h : ∃ user ∈ db.users, user.username = username) :
    ((on_disconnect db reg alive username).emitted =
        some (Event.user_status username false db.clock) ∧
      ∀ d ∈ (on_disconnect db reg alive username).dels,
        d.2 = Event.user_status username false db.clock) ∧
    (on_disconnect (on_disconnect db reg alive username).db
        (on_disconnect db reg alive username).reg alive username).emitted =
      some (Event.user_status username false
        (on_disconnect db reg alive username).db.clock) := by
  have hfirst := update_user_status_found db
    (if (reg.lookup username).isSome then reg.set username [] else reg)
    alive username false h
  have hd1 : on_disconnect db reg alive username =
      update_user_status db
        (if (reg.lookup username).isSome then reg.set username [] else reg)
        alive username false := rfl
  refine ⟨⟨?_, ?_⟩, ?_⟩
  · rw [hd1]
    exact hfirst.1
  · rw [hd1]
    exact hfirst.2.1
  · have hsecond := update_user_status_found
      (on_disconnect db reg alive username).db
      (if ((on_disconnect db reg alive username).reg.lookup username).isSome
        then (on_disconnect db reg alive username).reg.set username []
        else (on_disconnect db reg alive username).reg)
      alive username false (by rw [hd1]; exact hfirst.2.2.2)
    exact hsecond.1

/-- C1 witness for the amended theorem: the per-disconnect offline broadcast
instantiated at the concrete scenario (alice present, clock 3). -/
theorem C1_offline_broadcast_per_disconnect_witness :
    ((on_disconnect C1db C1reg C1alive "alice").emitted =
        some (Event.user_status "alice" false C1db.clock) ∧
      ∀ d ∈ (on_disconnect C1db C1reg C1alive "alice").dels,
        d.2 = Event.user_status "alice" false C1db.clock) ∧
    (on_disconnect (on_disconnect C1db C1reg C1alive "alice").db
        (on_disconnect C1db C1reg C1alive "alice").reg C1alive "alice").emitted =
      some (Event.user_status "alice" false
        (on_disconnect C1db C1reg C1alive "alice").db.clock) :=
  C1_offline_broadcast_per_disconnect C1db C1reg C1alive "alice"
    ⟨C1user, by decide, by decide⟩



/-- The database of the C2 witness: no rooms yet. -/
def C2db : DB :=
  { users := [], rooms := [], room_members := [], messages := [],
    next_user_id := 1, next_room_id := 1, next_member_id := 1,
    next_message_id := 1, clock := 0 }

/-- C2 witness: "Team Chat" and "team  CHAT!" normalize to the same slug;
creating with the first and then calling with the second returns the same
room id and leaves exactly one `team-chat` room. -/
theorem C2_same_slug_no_duplicate_room_witness :
    (get_or_create_room (get_or_create_room C2db "Team Chat" 1).2
        "team  CHAT!" 2).1.id =
      (get_or_create_room C2db "Team Chat" 1).1.id ∧
    ((get_or_create_room (get_or_create_room C2db "Team Chat" 1).2
        "team  CHAT!" 2).2.rooms.filter
        (fun r => r.slug = slugify "Team Chat")).length =
      max ((C2db.rooms.filter
        (fun r => r.slug = slugify "Team Chat")).length) 1 :=
  C2_same_slug_no_duplicate_room C2db "Team Chat" "team  CHAT!" 1 2 (by decide)


end ChatSpec
